import Mathlib

/-!
Verification of the git-stalker event-normalization pipeline.

This file gives a shallow embedding, in Lean, of the core of the
repository:

* `src/core/github.py` — `GitHubActivitySource`: the event normalizer
  (`_simplify_event_details`, `_get_human_readable_message`), credential
  validation (`validate_credentials` over `_fetch_github_data`), the
  organization filter (`_is_org_event`) and `get_activities`;
* `src/core/base.py` — the `Activity` record and
  `ActivityTracker.get_all_activities`.

Python values flowing through the pipeline are loosely typed JSON data;
they are embedded as the `JValue` type below.  Python operations that can
raise (`d[k]`, `.get` on a non-dict, `len`, slicing, `str.replace` on a
non-string, ...) are embedded as functions into `Except PyErr _`; a
`try/except` block becomes a `match` on the `Except` result.  Logging is
effect-only and is not modelled.  Machine integers do not occur (Python
integers are unbounded), so `Int`/`Nat` are used directly.
-/

/-! Embedding of a Python/JSON value as it appears in GitHub event
payloads: `None`, booleans, integers, strings, lists and string-keyed
dicts.  (Floats do not occur in the fields the code reads.)  `JArr` and
`JObj` are mutually inductive spellings of `List JValue` and
`List (String × JValue)` so that all functions below are structural. -/
mutual
inductive JValue where
  | null
  | bool (b : Bool)
  | num  (n : Int)
  | str  (s : String)
  | arr  (xs : JArr)
  | obj  (fs : JObj)
deriving DecidableEq

inductive JArr where
  | nil
  | cons (hd : JValue) (tl : JArr)
deriving DecidableEq

inductive JObj where
  | nil
  | cons (key : String) (val : JValue) (tl : JObj)
deriving DecidableEq
end

/-- Build a `JObj` (a Python dict literal, insertion-ordered) from a list
of key/value pairs. -/
def jobj : List (String × JValue) → JObj
  | [] => .nil
  | (k, v) :: rest => .cons k v (jobj rest)

/-- Build a `JArr` (a Python list literal) from a list of values. -/
def jarr : List JValue → JArr
  | [] => .nil
  | v :: rest => .cons v (jarr rest)

/-- The elements of an embedded Python list. -/
def JArr.toList : JArr → List JValue
  | .nil => []
  | .cons v rest => v :: rest.toList

/-- The key/value pairs of an embedded Python dict, in insertion order. -/
def JObj.toList : JObj → List (String × JValue)
  | .nil => []
  | .cons k v rest => (k, v) :: rest.toList

/-- Exceptions the embedded Python fragments can raise.  The code under
verification only ever catches blanket `Exception` (or
`requests.RequestException`, modelled separately), so only the class of
the error matters, never its payload. -/
inductive PyErr where
  | attributeError
  | keyError
  | typeError
  | valueError
  | indexError
deriving DecidableEq

/-- `True` iff the embedded computation raised. -/
def raised {ε α : Type} : Except ε α → Bool
  | .ok _ => false
  | .error _ => true

/-! ### Python string builtins used by the code -/

/-- One step per character scan for `str.replace` (all non-overlapping
occurrences, left to right).  `fuel` is consumed once per character of
the subject and is always sufficient at `length + 1`. -/
def replaceAux (pat rep : List Char) : Nat → List Char → List Char
  | _, [] => []
  | 0, l => l
  | fuel + 1, c :: rest =>
    if pat.isPrefixOf (c :: rest) then
      rep ++ replaceAux pat rep fuel ((c :: rest).drop pat.length)
    else
      c :: replaceAux pat rep fuel rest

/-- Python `s.replace(pat, rep)`: replaces every non-overlapping
occurrence of `pat`, scanning left to right; with an empty pattern the
replacement is interleaved around every character (CPython behavior).
(Digit-separator underscores and such do not arise here.) -/
def strReplace (s pat rep : String) : String :=
  if pat.data.isEmpty then
    ⟨rep.data ++ (s.data.map (fun c => c :: rep.data)).flatten⟩
  else
    ⟨replaceAux pat.data rep.data (s.data.length + 1) s.data⟩

/-- Python `s[:n]` on a string (slicing by code points). -/
def strTake (s : String) (n : Nat) : String := ⟨s.data.take n⟩

/-- Python `s.split("\n")[0]`: the characters before the first newline
(`split` never returns an empty list, so the `[0]` subscript is safe). -/
def strFirstLine (s : String) : String := ⟨s.data.takeWhile (· ≠ '\n')⟩

/-- Python `s.startswith(pat)`. -/
def strStartsWith (s pat : String) : Bool := pat.data.isPrefixOf s.data

/-- Python `s.capitalize()`: first character uppercased, the rest
lowercased (ASCII behavior of `Char.toUpper`/`toLower` suffices for the
action verbs that occur). -/
def strCapitalize (s : String) : String :=
  match s.data with
  | [] => ""
  | c :: rest => ⟨c.toUpper :: rest.map Char.toLower⟩

/-- The single-quote character, used by Python `repr` of strings. -/
def quoteChar : String := String.singleton (Char.ofNat 39)

/-! Python `str(v)` / `repr(v)` as used by f-string interpolation.
`pyStr` is `str()` (no quotes around a top-level string), `pyRepr` is
`repr()` (used for elements of containers).  Containers render as
`[a, b]` and `{'k': v}` in insertion order, as in CPython. -/
mutual
def pyStr : JValue → String
  | .null => "None"
  | .bool b => if b then "True" else "False"
  | .num n => toString n
  | .str s => s
  | .arr xs => "[" ++ pyReprArr xs ++ "]"
  | .obj fs => "\x7b" ++ pyReprObj fs ++ "\x7d"

def pyRepr : JValue → String
  | .null => "None"
  | .bool b => if b then "True" else "False"
  | .num n => toString n
  | .str s => quoteChar ++ s ++ quoteChar
  | .arr xs => "[" ++ pyReprArr xs ++ "]"
  | .obj fs => "\x7b" ++ pyReprObj fs ++ "\x7d"

def pyReprArr : JArr → String
  | .nil => ""
  | .cons x .nil => pyRepr x
  | .cons x (.cons y tl) => pyRepr x ++ ", " ++ pyReprArr (.cons y tl)

def pyReprObj : JObj → String
  | .nil => ""
  | .cons k v .nil => quoteChar ++ k ++ quoteChar ++ ": " ++ pyRepr v
  | .cons k v (.cons k2 v2 tl) =>
    quoteChar ++ k ++ quoteChar ++ ": " ++ pyRepr v ++ ", " ++ pyReprObj (.cons k2 v2 tl)
end

/-! ### Python dict / list / value operations -/

/-- First value stored under `key`, if any (dict literals here never
repeat keys, so first-match lookup is exact). -/
def JObj.lookup : JObj → String → Option JValue
  | .nil, _ => none
  | .cons k v tl, key => if k == key then some v else tl.lookup key

/-- Python `d.get(key, default)` on a value statically known to be a
dict: total. -/
def JObj.get (d : JObj) (key : String) (default : JValue) : JValue :=
  (d.lookup key).getD default

/-- Python `d[key]` on a value statically known to be a dict: raises
`KeyError` when absent. -/
def JObj.index (d : JObj) (key : String) : Except PyErr JValue :=
  match d.lookup key with
  | some v => .ok v
  | none => .error .keyError

/-- Python `v.get(key, default)` on an arbitrary value: `AttributeError`
unless `v` is a dict. -/
def JValue.get (v : JValue) (key : String) (default : JValue) : Except PyErr JValue :=
  match v with
  | .obj fs => .ok (fs.get key default)
  | _ => .error .attributeError

/-- Python one-argument `v.get(key)` (default `None`): `AttributeError`
unless `v` is a dict. -/
def JValue.getOrNone (v : JValue) (key : String) : Except PyErr JValue :=
  match v with
  | .obj fs => .ok (fs.get key .null)
  | _ => .error .attributeError

/-- Python `v[key]` with a string key on an arbitrary value: `KeyError`
for a dict missing the key, `TypeError` for non-dicts. -/
def JValue.subscr (v : JValue) (key : String) : Except PyErr JValue :=
  match v with
  | .obj fs => fs.index key
  | _ => .error .typeError

/-- Python `len(v)`: defined for strings, lists and dicts, `TypeError`
otherwise. -/
def JValue.pyLen (v : JValue) : Except PyErr Int :=
  match v with
  | .str s => .ok s.length
  | .arr xs => .ok xs.toList.length
  | .obj fs => .ok fs.toList.length
  | _ => .error .typeError

/-- Python `v[:n]`: slices strings and lists, `TypeError` otherwise. -/
def JValue.sliceTo (v : JValue) (n : Nat) : Except PyErr JValue :=
  match v with
  | .str s => .ok (.str (strTake s n))
  | .arr xs => .ok (.arr (jarr (xs.toList.take n)))
  | _ => .error .typeError

/-- Python iteration `for x in v`: yields list elements, the characters
of a string (as 1-character strings), or the keys of a dict; `TypeError`
otherwise. -/
def JValue.pyIterate (v : JValue) : Except PyErr (List JValue) :=
  match v with
  | .arr xs => .ok xs.toList
  | .str s => .ok (s.data.map (fun c => .str (String.singleton c)))
  | .obj fs => .ok (fs.toList.map (fun p => .str p.1))
  | _ => .error .typeError

/-- Python `v + suffix` with a string right operand, as in
`body[:100] + "..."`: `TypeError` unless `v` is a string. -/
def JValue.addStr (v : JValue) (suffix : String) : Except PyErr JValue :=
  match v with
  | .str s => .ok (.str (s ++ suffix))
  | _ => .error .typeError

/-- Python `v.replace(pat, rep)`: `AttributeError` unless `v` is a
string. -/
def JValue.replace (v : JValue) (pat rep : String) : Except PyErr String :=
  match v with
  | .str s => .ok (strReplace s pat rep)
  | _ => .error .attributeError

/-- Python `v.split("\n")[0]` as used for commit messages:
`AttributeError` unless `v` is a string. -/
def JValue.firstLine (v : JValue) : Except PyErr String :=
  match v with
  | .str s => .ok (strFirstLine s)
  | _ => .error .attributeError

/-- Python `v.startswith(pat)`: `AttributeError` unless `v` is a
string. -/
def JValue.startsWith (v : JValue) (pat : String) : Except PyErr Bool :=
  match v with
  | .str s => .ok (strStartsWith s pat)
  | _ => .error .attributeError

/-- Python `v.capitalize()`: `AttributeError` unless `v` is a string. -/
def JValue.capitalize (v : JValue) : Except PyErr String :=
  match v with
  | .str s => .ok (strCapitalize s)
  | _ => .error .attributeError

/-- Python truthiness `bool(v)`: total on every value. -/
def JValue.truthy : JValue → Bool
  | .null => false
  | .bool b => b
  | .num n => n != 0
  | .str s => s != ""
  | .arr xs => !(xs.toList.isEmpty)
  | .obj fs => !(fs.toList.isEmpty)

/-- Python `v[0]`: first list element or first character;
`IndexError` when empty, `TypeError` for non-sequences. -/
def JValue.indexZero (v : JValue) : Except PyErr JValue :=
  match v with
  | .arr (.cons x _) => .ok x
  | .arr .nil => .error .indexError
  | .str s =>
    match s.data with
    | [] => .error .indexError
    | c :: _ => .ok (.str (String.singleton c))
  | _ => .error .typeError

/-- Python `v == "lit"` for a string literal: total; only equal strings
compare equal (no value here compares equal to a `str` across types). -/
def JValue.eqStr (v : JValue) (lit : String) : Bool :=
  match v with
  | .str s => s == lit
  | _ => false

/-- Python `v > n` with an integer: defined for integers and booleans
(Python `bool` is an `int`), `TypeError` otherwise. -/
def JValue.gtInt (v : JValue) (n : Int) : Except PyErr Bool :=
  match v with
  | .num m => .ok (n < m)
  | .bool b => .ok (n < (if b then (1 : Int) else 0))
  | _ => .error .typeError

/-! ### The event normalizer: `_simplify_event_details`
(`src/core/github.py` lines 71-174).

The Python body is one `try` block; each possibly-raising operation is a
`match` on its `Except` result, in source evaluation order (statements
first, then the dict literal's values left to right).  The event-type
parameter is a `JValue` because the pipeline passes `event["type"]`
through unchecked; every claim instantiates it with a string. -/

/-- The list comprehension of github.py line 92-95:
`[commit.get("message", "").split("\n")[0] for commit in ...]`,
evaluated left to right, raising at the first failing element. -/
def commitFirstLines : List JValue → Except PyErr (List String)
  | [] => .ok []
  | c :: rest =>
    match c.get "message" (.str "") with
    | .error e => .error e
    | .ok m =>
      match m.firstLine with
      | .error e => .error e
      | .ok line =>
        match commitFirstLines rest with
        | .error e => .error e
        | .ok lines => .ok (line :: lines)

/-- The fallback mapping of github.py line 172. -/
def fallbackDetails : JObj := jobj [("error", .str "Failed to process event details")]

/-- The `try` block of `_simplify_event_details` (github.py lines 75-169). -/
def simplifyBody (etv : JValue) (event : JObj) : Except PyErr JObj :=
  match (event.get "repo" (.obj .nil)).get "name" (.str "unknown") with
  | .error e => .error e
  | .ok repo =>
    let payload := event.get "payload" (.obj .nil)
    let repoUrl := "https://github.com/" ++ pyStr repo
    if etv.eqStr "PushEvent" then
      match payload.get "ref" (.str "unknown") with
      | .error e => .error e
      | .ok ref =>
        -- `branch = ref.replace("refs/heads/", "")` (line 86): computed,
        -- can raise, but its value is never stored in the details.
        match ref.replace "refs/heads/" "" with
        | .error e => .error e
        | .ok _branch =>
          match payload.get "commits" (.arr .nil) with
          | .error e => .error e
          | .ok commits =>
            match commits.pyLen with
            | .error e => .error e
            | .ok ccount =>
              match commits.sliceTo 3 with
              | .error e => .error e
              | .ok sliced =>
                match sliced.pyIterate with
                | .error e => .error e
                | .ok items =>
                  match commitFirstLines items with
                  | .error e => .error e
                  | .ok msgs =>
                    match payload.get "before" (.str "") with
                    | .error e => .error e
                    | .ok beforeSha =>
                      match payload.get "head" (.str "") with
                      | .error e => .error e
                      | .ok headSha =>
                        .ok (jobj
                          [("repository", repo),
                           ("repository_url", .str repoUrl),
                           ("ref", ref),
                           ("commit_count", .num ccount),
                           ("commit_messages", .arr (jarr (msgs.map JValue.str))),
                           ("compare_url", .str (repoUrl ++ "/compare/" ++
                             pyStr beforeSha ++ "..." ++ pyStr headSha))])
    else if etv.eqStr "PullRequestEvent" then
      match payload.get "pull_request" (.obj .nil) with
      | .error e => .error e
      | .ok pr =>
        match payload.get "action" (.str "unknown") with
        | .error e => .error e
        | .ok action =>
          match pr.get "title" (.str "unknown") with
          | .error e => .error e
          | .ok title =>
            match pr.get "number" (.str "unknown") with
            | .error e => .error e
            | .ok number =>
              match pr.get "state" (.str "unknown") with
              | .error e => .error e
              | .ok state =>
                match pr.getOrNone "html_url" with
                | .error e => .error e
                | .ok url =>
                  .ok (jobj
                    [("action", action), ("title", title), ("number", number),
                     ("repository", repo), ("repository_url", .str repoUrl),
                     ("state", state), ("url", url)])
    else if etv.eqStr "IssuesEvent" then
      match payload.get "issue" (.obj .nil) with
      | .error e => .error e
      | .ok issue =>
        match payload.get "action" (.str "unknown") with
        | .error e => .error e
        | .ok action =>
          match issue.get "title" (.str "unknown") with
          | .error e => .error e
          | .ok title =>
            match issue.get "number" (.str "unknown") with
            | .error e => .error e
            | .ok number =>
              match issue.getOrNone "html_url" with
              | .error e => .error e
              | .ok url =>
                .ok (jobj
                  [("action", action), ("title", title), ("number", number),
                   ("repository", repo), ("repository_url", .str repoUrl),
                   ("url", url)])
    else if etv.eqStr "IssueCommentEvent" then
      match payload.get "action" (.str "unknown") with
      | .error e => .error e
      | .ok action =>
        match payload.get "issue" (.obj .nil) with
        | .error e => .error e
        | .ok issue1 =>
          match issue1.get "number" (.str "unknown") with
          | .error e => .error e
          | .ok issueNumber =>
            match payload.get "comment" (.obj .nil) with
            | .error e => .error e
            | .ok comment1 =>
              match comment1.get "body" (.str "") with
              | .error e => .error e
              | .ok body =>
                match body.sliceTo 100 with
                | .error e => .error e
                | .ok bodyCut =>
                  match bodyCut.addStr "..." with
                  | .error e => .error e
                  | .ok fragment =>
                    match payload.get "comment" (.obj .nil) with
                    | .error e => .error e
                    | .ok comment2 =>
                      match comment2.getOrNone "html_url" with
                      | .error e => .error e
                      | .ok url =>
                        match payload.get "issue" (.obj .nil) with
                        | .error e => .error e
                        | .ok issue2 =>
                          match issue2.getOrNone "html_url" with
                          | .error e => .error e
                          | .ok issueUrl =>
                            .ok (jobj
                              [("action", action), ("issue_number", issueNumber),
                               ("repository", repo), ("repository_url", .str repoUrl),
                               ("comment_fragment", fragment), ("url", url),
                               ("issue_url", issueUrl)])
    else if etv.eqStr "CreateEvent" then
      match payload.get "ref_type" (.str "unknown") with
      | .error e => .error e
      | .ok refType =>
        match payload.get "ref" (.str "unknown") with
        | .error e => .error e
        | .ok ref =>
          .ok (jobj
            [("ref_type", refType), ("ref", ref),
             ("repository", repo), ("repository_url", .str repoUrl),
             ("url", .str
               (if refType.eqStr "branch" then repoUrl ++ "/tree/" ++ pyStr ref
                else if refType.eqStr "tag" then repoUrl ++ "/releases/tag/" ++ pyStr ref
                else repoUrl))])
    else if etv.eqStr "DeleteEvent" then
      match payload.get "ref_type" (.str "unknown") with
      | .error e => .error e
      | .ok refType =>
        match payload.get "ref" (.str "unknown") with
        | .error e => .error e
        | .ok ref =>
          .ok (jobj
            [("ref_type", refType), ("ref", ref),
             ("repository", repo), ("repository_url", .str repoUrl)])
    else if etv.eqStr "WatchEvent" then
      match payload.get "action" (.str "unknown") with
      | .error e => .error e
      | .ok action =>
        .ok (jobj
          [("action", action),
           ("repository", repo), ("repository_url", .str repoUrl)])
    else
      .ok (jobj
        [("event_type", etv),
         ("repository", repo), ("repository_url", .str repoUrl)])

/-- `_simplify_event_details` (github.py lines 71-174): the `try` body,
with any raised exception caught and replaced by the fallback mapping
(lines 170-172). -/
def simplify_event_details (etv : JValue) (event : JObj) : JObj :=
  match simplifyBody etv event with
  | .ok d => d
  | .error _ => fallbackDetails

/-! ### The describe operation: `_get_human_readable_message`
(`src/core/github.py` lines 176-229). -/

/-- The `try` block of `_get_human_readable_message` (lines 178-225).
Reads only the already-simplified details mapping; `details[k]` raises
`KeyError` on a missing key, and the string methods raise on
wrongly-typed values, all caught by the caller. -/
def msgBody (etv : JValue) (details : JObj) : Except PyErr String :=
  if etv.eqStr "PushEvent" then
    match details.index "commit_count" with
    | .error e => .error e
    | .ok cc =>
      match details.index "repository" with
      | .error e => .error e
      | .ok repo =>
        match details.index "ref" with
        | .error e => .error e
        | .ok refv =>
          match refv.replace "refs/heads/" "" with
          | .error e => .error e
          | .ok branch =>
            match details.index "commit_messages" with
            | .error e => .error e
            | .ok cms =>
              match
                (if cms.truthy then
                  match cms.indexZero with
                  | .error e => .error e
                  | .ok first => .ok (": " ++ pyStr first)
                else (.ok "" : Except PyErr String)) with
              | .error e => .error e
              | .ok commitMsg =>
                match cc.gtInt 1 with
                | .error e => .error e
                | .ok plural =>
                  .ok ("Pushed " ++ pyStr cc ++ " commit" ++
                    (if plural then "s" else "") ++ " to " ++ pyStr repo ++ "/" ++
                    branch ++ commitMsg)
  else if etv.eqStr "PullRequestEvent" then
    match details.index "action" with
    | .error e => .error e
    | .ok action =>
      match details.index "title" with
      | .error e => .error e
      | .ok title =>
        match details.index "number" with
        | .error e => .error e
        | .ok number =>
          match details.index "repository" with
          | .error e => .error e
          | .ok repo =>
            match action.capitalize with
            | .error e => .error e
            | .ok capAction =>
              .ok (capAction ++ " PR #" ++ pyStr number ++ " in " ++ pyStr repo ++
                ": " ++ pyStr title)
  else if etv.eqStr "IssuesEvent" then
    match details.index "action" with
    | .error e => .error e
    | .ok action =>
      match details.index "title" with
      | .error e => .error e
      | .ok title =>
        match details.index "number" with
        | .error e => .error e
        | .ok number =>
          match details.index "repository" with
          | .error e => .error e
          | .ok repo =>
            match action.capitalize with
            | .error e => .error e
            | .ok capAction =>
              .ok (capAction ++ " issue #" ++ pyStr number ++ " in " ++ pyStr repo ++
                ": " ++ pyStr title)
  else if etv.eqStr "IssueCommentEvent" then
    match details.index "repository" with
    | .error e => .error e
    | .ok repo =>
      match details.index "issue_number" with
      | .error e => .error e
      | .ok number =>
        match details.index "comment_fragment" with
        | .error e => .error e
        | .ok comment =>
          .ok ("Commented on issue #" ++ pyStr number ++ " in " ++ pyStr repo ++
            ": " ++ pyStr comment)
  else if etv.eqStr "CreateEvent" then
    match details.index "ref_type" with
    | .error e => .error e
    | .ok refType =>
      match details.index "ref" with
      | .error e => .error e
      | .ok ref =>
        match details.index "repository" with
        | .error e => .error e
        | .ok repo =>
          .ok ("Created " ++ pyStr refType ++ " " ++ pyStr ref ++ " in " ++ pyStr repo)
  else if etv.eqStr "DeleteEvent" then
    match details.index "ref_type" with
    | .error e => .error e
    | .ok refType =>
      match details.index "ref" with
      | .error e => .error e
      | .ok ref =>
        match details.index "repository" with
        | .error e => .error e
        | .ok repo =>
          .ok ("Deleted " ++ pyStr refType ++ " " ++ pyStr ref ++ " in " ++ pyStr repo)
  else if etv.eqStr "WatchEvent" then
    match details.index "repository" with
    | .error e => .error e
    | .ok repo =>
      .ok ("Starred repository " ++ pyStr repo)
  else
    .ok ("Performed " ++ pyStr etv ++ " on " ++
      pyStr (details.get "repository" (.str "unknown repository")))

/-- `_get_human_readable_message` (lines 176-229): the `try` body with
any raised exception caught and replaced by `"Performed {event_type}"`
(lines 227-229). -/
def get_human_readable_message (etv : JValue) (details : JObj) : String :=
  match msgBody etv details with
  | .ok s => s
  | .error _ => "Performed " ++ pyStr etv

/-! ### The `Activity` record and `ActivityTracker`
(`src/core/base.py`). -/

/-- `Activity` (base.py lines 6-13), a frozen dataclass.  The timestamp
is embedded as an integer instant (datetimes are totally ordered; only
their order matters to the code under verification).  The `type` field
carries whatever `event["type"]` held. -/
structure Activity where
  source : String
  timestamp : Int
  type : JValue
  details : JObj
  message : String
deriving DecidableEq

/-- The sort key relation of base.py line 83:
`sorted(activities, key=lambda x: x.timestamp, reverse=True)` orders by
timestamp descending. -/
def tsDesc (a b : Activity) : Prop := b.timestamp ≤ a.timestamp

instance : DecidableRel tsDesc :=
  fun a b => inferInstanceAs (Decidable (b.timestamp ≤ a.timestamp))

instance : IsTotal Activity tsDesc := ⟨fun a b => le_total b.timestamp a.timestamp⟩

instance : IsTrans Activity tsDesc := ⟨fun _ _ _ h1 h2 => le_trans h2 h1⟩

/-- A registered activity source, as the Tracker sees it: its
`get_activities(username, start_date, end_date)` method, which returns a
list of activities or raises. -/
abbrev Source : Type := String → Option Int → Option Int → Except PyErr (List Activity)

/-- The accumulation loop of `get_all_activities` (base.py lines 68-81):
each source is queried in registration order; a source that raises is
logged and skipped (`except Exception: continue`), the rest are
concatenated in order by `activities.extend(...)`. -/
def collectFromSources (username : String) (sd ed : Option Int) : List Source → List Activity
  | [] => []
  | s :: rest =>
    match s username sd ed with
    | .ok l => l ++ collectFromSources username sd ed rest
    | .error _ => collectFromSources username sd ed rest

/-- `ActivityTracker.get_all_activities` (base.py lines 58-85).  Python's
`sorted(..., key=lambda x: x.timestamp, reverse=True)` is a stable
descending sort (CPython documents that `reverse=True` preserves the
order of elements that compare equal); the stable descending permutation
of a list is unique, and `List.insertionSort tsDesc` produces exactly it
(`orderedInsert` places an element before the first list element whose
timestamp is `≤` its own, so earlier-collected activities stay first
among equal timestamps). -/
def get_all_activities (sources : List Source) (username : String)
    (sd ed : Option Int) : List Activity :=
  List.insertionSort tsDesc (collectFromSources username sd ed sources)

/-! ### `GitHubActivitySource.get_activities` and the organization
filter (`src/core/github.py` lines 242-305). -/

/-- `_is_org_event` (lines 242-248): `True` when no organization is
configured (`None` or the empty string are both falsy), otherwise a
prefix test of the event's repository name against `"{org}/"`. -/
def is_org_event (org : Option String) (event : JValue) : Except PyErr Bool :=
  match org with
  | none => .ok true
  | some o =>
    if o == "" then .ok true
    else
      match event.get "repo" (.obj .nil) with
      | .error e => .error e
      | .ok repoV =>
        match repoV.get "name" (.str "") with
        | .error e => .error e
        | .ok name => name.startsWith (o ++ "/")

/-- The body of the per-event loop of `get_activities` (lines 277-302),
for one raw event: `.ok none` when the organization filter skips the
event, `.error` when any step raises (the loop catches it and skips the
event), `.ok (some a)` for a processed activity.  `parseTs` embeds
`datetime.fromisoformat`; parse failure is its `ValueError`. -/
def processEvent (parseTs : String → Option Int) (org : Option String)
    (ev : JValue) : Except PyErr (Option Activity) :=
  match is_org_event org ev with
  | .error e => .error e
  | .ok keep =>
    if !keep then .ok none
    else
      match ev with
      | .obj fs =>
        match fs.index "type" with
        | .error e => .error e
        | .ok etv =>
          let details := simplify_event_details etv fs
          let msg := get_human_readable_message etv details
          match fs.index "created_at" with
          | .error e => .error e
          | .ok created =>
            match created.replace "Z" "+00:00" with
            | .error e => .error e
            | .ok cs =>
              match parseTs cs with
              | none => .error .valueError
              | some ts => .ok (some ⟨"github", ts, etv, details, msg⟩)
      | _ => .error .typeError

/-- The event loop of `get_activities` (lines 275-302): events in feed
order, each processed independently; a raised exception or a filtered
event contributes nothing (`continue`). -/
def collectActivities (parseTs : String → Option Int) (org : Option String) :
    List JValue → List Activity
  | [] => []
  | e :: rest =>
    match processEvent parseTs org e with
    | .ok (some a) => a :: collectActivities parseTs org rest
    | .ok none => collectActivities parseTs org rest
    | .error _ => collectActivities parseTs org rest

/-- `GitHubActivitySource.get_activities` (lines 250-305), with the
transport abstracted: `events` is the already-fetched JSON list (the
function re-raises any fetch failure, so only the success path builds a
result).  The `start_date`/`end_date` parameters are converted to
strings (lines 261-263) purely to be logged (line 265); no filtering
uses them. -/
def get_activities (parseTs : String → Option Int) (org : Option String)
    (username : String) (start_date end_date : Option Int)
    (events : List JValue) : List Activity :=
  let _startStr := start_date.map (fun d => toString d ++ "Z")
  let _endStr := end_date.map (fun d => toString d ++ "Z")
  let _url := "https://api.github.com/users/" ++ username ++ "/events"
  collectActivities parseTs org events

/-! ### Transport and `validate_credentials`
(`src/core/github.py` lines 46-65 and 231-240). -/

/-- What the underlying `requests` transport hands back for one request:
either the library raised (`none` case of the `Except` in
`fetch_github_data`), or a response with a status code, the two
rate-limit headers (absent or a string), and a body that either parses
as JSON or does not. -/
structure HttpResponse where
  status : Nat
  rateLimitRemaining : Option String
  rateLimitReset : Option String
  jsonValid : Bool
  body : JValue

/-- Exceptions at the transport boundary: `requestException` covers
every `requests.RequestException` (connection failure from
`session.get`, the `HTTPError` of `raise_for_status`, and the JSON
decode error of `response.json()`, which subclasses
`RequestException`); `valueError` is the `int()` failure in the
rate-limit logging branch, which is not a `RequestException`. -/
inductive FetchError where
  | requestException
  | valueError
deriving DecidableEq

/-- Python `int(s)` for a string argument: optional surrounding
whitespace, optional sign, then decimal digits; `None` models the
`ValueError` raise.  (CPython also accepts digit-group underscores;
irrelevant for the header strings at issue.) -/
def pyIntParse (s : String) : Option Int :=
  let isSpace : Char → Bool := fun c => c == ' ' || c == '\t' || c == '\n' || c == '\r'
  let t := ((s.data.dropWhile isSpace).reverse.dropWhile isSpace).reverse
  let signed : Bool × List Char :=
    match t with
    | '-' :: rest => (true, rest)
    | '+' :: rest => (false, rest)
    | l => (false, l)
  if signed.2.isEmpty || !(signed.2.all Char.isDigit) then none
  else
    let n : Int := Int.ofNat (signed.2.foldl (fun a c => a * 10 + (c.toNat - 48)) 0)
    some (if signed.1 then -n else n)

/-- Lines 61-62 of `_fetch_github_data`: `raise_for_status()` (an
`HTTPError`, a `RequestException`, for 4xx/5xx) then `response.json()`
(its decode error is a `RequestException`). -/
def fetchTail (r : HttpResponse) : Except FetchError JValue :=
  if 400 ≤ r.status ∧ r.status < 600 then .error .requestException
  else if r.jsonValid then .ok r.body
  else .error .requestException

/-- `_fetch_github_data` (lines 46-65) over one transport outcome.  A
raise from `session.get` is logged and re-raised (lines 63-65).  When
the response is a 403 whose `X-RateLimit-Remaining` header is present
and `'0'`, line 58 runs `int(rate_limit_reset)` on the
`X-RateLimit-Reset` header (default string `'unknown'`, line 54); if
that fails, the `ValueError` is *not* caught by the
`except requests.RequestException` handler and escapes.
`datetime.fromtimestamp` on a successfully parsed integer is modelled as
total (platform-range overflows are out of scope). -/
def fetch_github_data (t : Except Unit HttpResponse) : Except FetchError JValue :=
  match t with
  | .error _ => .error .requestException
  | .ok r =>
    if r.status == 403 && r.rateLimitRemaining == some "0" then
      match pyIntParse (r.rateLimitReset.getD "unknown") with
      | none => .error .valueError
      | some _ => fetchTail r
    else fetchTail r

/-- `validate_credentials` (lines 231-240): calls `_fetch_github_data`
on the authenticated-user endpoint; `True` on success, and
`except requests.RequestException` converts those failures to `False`.
Any other exception (the `ValueError` above) propagates. -/
def validate_credentials (t : Except Unit HttpResponse) : Except FetchError Bool :=
  match fetch_github_data t with
  | .ok _ => .ok true
  | .error .requestException => .ok false
  | .error .valueError => .error .valueError

/-! ### Canonically-shaped events, for stating per-type claims -/

/-- A PushEvent raw event of the canonical GitHub shape: repository
name, `refs/...` ref, before/head SHAs, and one commit object per
message. -/
def mkPushEvent (repoName ref beforeSha headSha : String)
    (commitMessages : List String) : JObj :=
  jobj
    [("type", .str "PushEvent"),
     ("repo", .obj (jobj [("name", .str repoName)])),
     ("payload", .obj (jobj
       [("ref", .str ref),
        ("commits", .arr (jarr (commitMessages.map
          (fun m => .obj (jobj [("message", .str m)]))))),
        ("before", .str beforeSha),
        ("head", .str headSha)]))]

/-- An IssueCommentEvent raw event of the canonical GitHub shape. -/
def mkIssueCommentEvent (repoName action body issueUrl commentUrl : String)
    (issueNumber : Int) : JObj :=
  jobj
    [("type", .str "IssueCommentEvent"),
     ("repo", .obj (jobj [("name", .str repoName)])),
     ("payload", .obj (jobj
       [("action", .str action),
        ("issue", .obj (jobj
          [("number", .num issueNumber), ("html_url", .str issueUrl)])),
        ("comment", .obj (jobj
          [("body", .str body), ("html_url", .str commentUrl)]))]))]

/-- The detail keys each branch of `_get_human_readable_message` reads
with a raising `details[k]` subscript (github.py lines 179-225); the
final `else` branch reads only via `.get` and needs none. -/
def requiredKeys (et : String) : List String :=
  if et == "PushEvent" then ["commit_count", "repository", "ref", "commit_messages"]
  else if et == "PullRequestEvent" then ["action", "title", "number", "repository"]
  else if et == "IssuesEvent" then ["action", "title", "number", "repository"]
  else if et == "IssueCommentEvent" then ["repository", "issue_number", "comment_fragment"]
  else if et == "CreateEvent" then ["ref_type", "ref", "repository"]
  else if et == "DeleteEvent" then ["ref_type", "ref", "repository"]
  else if et == "WatchEvent" then ["repository"]
  else []

/-- `pat` occurs contiguously somewhere in `l`. -/
def subAt (pat : List Char) : List Char → Bool
  | [] => pat.isEmpty
  | c :: rest => pat.isPrefixOf (c :: rest) || subAt pat rest

/-- Python `pat in s` substring containment. -/
def strContains (s pat : String) : Bool := subAt pat.data s.data

/-! ## Helper lemmas -/

theorem jarr_toList (l : List JValue) : (jarr l).toList = l := by
  induction l with
  | nil => rfl
  | cons x xs ih => simp [jarr, JArr.toList, ih]

theorem index_ok_lookup {d : JObj} {k : String} {v : JValue}
    (h : d.index k = .ok v) : d.lookup k = some v := by
  unfold JObj.index at h
  cases hl : d.lookup k with
  | none => rw [hl] at h; exact absurd h (by simp)
  | some w => rw [hl] at h; cases h; rfl

theorem index_ok_isSome {d : JObj} {k : String} {v : JValue}
    (h : d.index k = .ok v) : (d.lookup k).isSome := by
  rw [index_ok_lookup h]; rfl

theorem index_none {d : JObj} {k : String} (h : d.lookup k = none) :
    d.index k = .error .keyError := by
  unfold JObj.index; rw [h]

theorem str_append_ne_left {a : String} (b : String) (h : a ≠ "") :
    a ++ b ≠ "" := by
  intro hc
  apply h
  have hd : a.data ++ b.data = ([] : List Char) := congrArg String.data hc
  have : a.data = [] := (List.append_eq_nil.mp hd).1
  cases a
  simp_all

theorem str_append_ne_right (a : String) {b : String} (h : b ≠ "") :
    a ++ b ≠ "" := by
  intro hc
  apply h
  have hd : a.data ++ b.data = ([] : List Char) := congrArg String.data hc
  have : b.data = [] := (List.append_eq_nil.mp hd).2
  cases b
  simp_all

/-! ## Claim C1 -/

/-- C1: for every event type string and every raw event payload,
`_simplify_event_details` returns a mapping (it is a total function into
dicts), and whenever the extraction body raises, the returned mapping is
exactly the fallback `{"error": "Failed to process event details"}`;
otherwise it returns the extraction result unchanged. -/
theorem simplify_never_raises (et : String) (event : JObj) :
    (raised (simplifyBody (.str et) event) = true →
      simplify_event_details (.str et) event = fallbackDetails) ∧
    (∀ d : JObj, simplifyBody (.str et) event = .ok d →
      simplify_event_details (.str et) event = d) := by
  constructor
  · intro h
    unfold simplify_event_details
    cases hb : simplifyBody (.str et) event with
    | ok d => rw [hb] at h; exact absurd h (by simp [raised])
    | error e => rfl
  · intro d hd
    unfold simplify_event_details
    rw [hd]

/-- Witness for C1 at a concrete raising input: a `PushEvent` whose
`payload` is the string `"x"`, so `payload.get("ref", ...)` raises
`AttributeError`; the result is exactly the fallback mapping. -/
theorem simplify_never_raises_witness :
    raised (simplifyBody (.str "PushEvent") (jobj [("payload", .str "x")])) = true ∧
    simplify_event_details (.str "PushEvent") (jobj [("payload", .str "x")]) =
      fallbackDetails :=
  ⟨by decide, (simplify_never_raises "PushEvent" _).1 (by decide)⟩

/-! ## Claim C9 -/

/-- C9: with the fetched event list held fixed, `get_activities` returns
the identical activity list for every choice of `start_date` and
`end_date`: the dates feed only the (unmodelled) log lines, and no
filtering step consults them. -/
theorem get_activities_ignores_dates (parseTs : String → Option Int)
    (org : Option String) (username : String) (sd1 ed1 sd2 ed2 : Option Int)
    (events : List JValue) :
    get_activities parseTs org username sd1 ed1 events =
    get_activities parseTs org username sd2 ed2 events := rfl

/-! ## Claim C6 -/

/-- Counterexample to C6 as stated: a transport behavior on which
`validate_credentials` raises.  The transport returns a 403 response
with `X-RateLimit-Remaining: 0` and no `X-RateLimit-Reset` header, so
line 58 of github.py runs `int('unknown')`, whose `ValueError` is not a
`requests.RequestException` and escapes both `_fetch_github_data`'s and
`validate_credentials`'s handlers. -/
theorem validate_credentials_can_raise :
    validate_credentials (.ok ⟨403, some "0", none, true, .null⟩) =
      .error .valueError := rfl

/-- C6 amended: `validate_credentials` returns `True` exactly when the
request succeeds (no transport raise, non-error status, JSON body), and
`False` exactly when the request fails with a
`requests.RequestException`; but it does not catch everything: a
`ValueError` escapes it exactly when the response is a 403 with
`X-RateLimit-Remaining` equal to `'0'` whose `X-RateLimit-Reset` header
does not parse as an integer. -/
theorem validate_credentials_spec (t : Except Unit HttpResponse) :
    (validate_credentials t = .error .valueError ↔
      ∃ r, t = .ok r ∧ r.status = 403 ∧ r.rateLimitRemaining = some "0" ∧
        pyIntParse (r.rateLimitReset.getD "unknown") = none) ∧
    (validate_credentials t = .ok true ↔ ∃ v, fetch_github_data t = .ok v) ∧
    (validate_credentials t = .ok false ↔
      fetch_github_data t = .error .requestException) := by
  cases t with
  | error u => simp [validate_credentials, fetch_github_data]
  | ok r =>
    by_cases h403 : (r.status == 403 && r.rateLimitRemaining == some "0") = true
    · obtain ⟨hs, hrem⟩ : r.status = 403 ∧ r.rateLimitRemaining = some "0" := by
        simpa [Bool.and_eq_true, beq_iff_eq] using h403
      cases hp : pyIntParse (r.rateLimitReset.getD "unknown") with
      | none =>
        have hf : fetch_github_data (.ok r) = .error .valueError := by
          simp only [fetch_github_data]
          rw [if_pos h403, hp]
        have hv : validate_credentials (.ok r) = .error .valueError := by
          simp only [validate_credentials]
          rw [hf]
        rw [hv, hf]
        refine ⟨⟨fun _ => ⟨r, rfl, hs, hrem, hp⟩, fun _ => rfl⟩, by simp, by simp⟩
      | some n =>
        have htail : fetchTail r = .error .requestException := by
          simp only [fetchTail]
          rw [if_pos ⟨by omega, by omega⟩]
        have hf : fetch_github_data (.ok r) = .error .requestException := by
          simp only [fetch_github_data]
          rw [if_pos h403, hp, htail]
        have hv : validate_credentials (.ok r) = .ok false := by
          simp only [validate_credentials]
          rw [hf]
        rw [hv, hf]
        refine ⟨?_, by simp, by simp⟩
        simp only [iff_iff_implies_and_implies]
        constructor
        · intro h; exact absurd h (by simp)
        · rintro ⟨r2, hr2, -, -, hp2⟩
          cases hr2
          rw [hp] at hp2
          exact absurd hp2 (by simp)
    · have hcases : ¬ (r.status = 403 ∧ r.rateLimitRemaining = some "0") := by
        intro hc
        exact h403 (by simp [hc.1, hc.2])
      have hf : fetch_github_data (.ok r) = fetchTail r := by
        simp only [fetch_github_data]
        rw [if_neg h403]
      by_cases herr : 400 ≤ r.status ∧ r.status < 600
      · have htail : fetchTail r = .error .requestException := by
          simp only [fetchTail]
          rw [if_pos herr]
        have hv : validate_credentials (.ok r) = .ok false := by
          simp only [validate_credentials]
          rw [hf, htail]
        rw [hv, hf, htail]
        refine ⟨?_, by simp, by simp⟩
        simp only [iff_iff_implies_and_implies]
        constructor
        · intro h; exact absurd h (by simp)
        · rintro ⟨r2, hr2, h1, h2, -⟩
          cases hr2
          exact absurd ⟨h1, h2⟩ hcases
      · by_cases hjson : r.jsonValid = true
        · have htail : fetchTail r = .ok r.body := by
            simp only [fetchTail]
            rw [if_neg herr, if_pos hjson]
          have hv : validate_credentials (.ok r) = .ok true := by
            simp only [validate_credentials]
            rw [hf, htail]
          rw [hv, hf, htail]
          refine ⟨?_, by simp, by simp⟩
          simp only [iff_iff_implies_and_implies]
          constructor
          · intro h; exact absurd h (by simp)
          · rintro ⟨r2, hr2, h1, h2, -⟩
            cases hr2
            exact absurd ⟨h1, h2⟩ hcases
        · have htail : fetchTail r = .error .requestException := by
            simp only [fetchTail]
            rw [if_neg herr, if_neg hjson]
          have hv : validate_credentials (.ok r) = .ok false := by
            simp only [validate_credentials]
            rw [hf, htail]
          rw [hv, hf, htail]
          refine ⟨?_, by simp, by simp⟩
          simp only [iff_iff_implies_and_implies]
          constructor
          · intro h; exact absurd h (by simp)
          · rintro ⟨r2, hr2, h1, h2, -⟩
            cases hr2
            exact absurd ⟨h1, h2⟩ hcases

/-! ## Claim C2 -/

/-- The commit-message comprehension on a canonically shaped commit
list: one first line per commit object. -/
theorem commitFirstLines_canonical (l : List String) :
    commitFirstLines (l.map
        (fun m => JValue.obj (JObj.cons "message" (JValue.str m) JObj.nil))) =
      .ok (l.map strFirstLine) := by
  induction l with
  | nil => rfl
  | cons m rest ih =>
    simp [commitFirstLines, JValue.get, JObj.get, JObj.lookup,
      JValue.firstLine, ih]

/-- Counterexample to C2 as stated: for a push to `refs/heads/main`, the
simplified details store the raw ref `"refs/heads/main"` under `"ref"`,
and no detail value equals the stripped branch name `"main"` — the
`refs/heads/` stripping happens only later, inside
`_get_human_readable_message` (github.py line 182); the `branch`
variable computed on line 86 is never stored. -/
theorem push_details_lack_stripped_branch :
    (simplify_event_details (.str "PushEvent")
        (mkPushEvent "r/s" "refs/heads/main" "a" "b" [])).lookup "ref" =
      some (.str "refs/heads/main") ∧
    ∀ p ∈ (simplify_event_details (.str "PushEvent")
        (mkPushEvent "r/s" "refs/heads/main" "a" "b" [])).toList,
      p.2 ≠ .str "main" := by decide

/-- C2 amended: for every canonically shaped PushEvent payload, the
simplified details contain the *raw* ref (stripping `refs/heads/` is
deferred to the message step), the commit count, the first line of each
of at most the first 3 commit messages, and a compare URL built from the
payload's `before`/`head` SHAs. -/
theorem push_details_spec (repoName ref beforeSha headSha : String)
    (msgs : List String) :
    simplify_event_details (.str "PushEvent")
        (mkPushEvent repoName ref beforeSha headSha msgs) =
      jobj
        [("repository", .str repoName),
         ("repository_url", .str ("https://github.com/" ++ repoName)),
         ("ref", .str ref),
         ("commit_count", .num msgs.length),
         ("commit_messages", .arr (jarr
           ((msgs.take 3).map (fun m => .str (strFirstLine m))))),
         ("compare_url", .str ("https://github.com/" ++ repoName ++
           "/compare/" ++ beforeSha ++ "..." ++ headSha))] := by
  simp [simplify_event_details, simplifyBody, mkPushEvent, jobj,
    JValue.get, JObj.get, JObj.lookup, JValue.eqStr, JValue.replace,
    JValue.pyLen, JValue.sliceTo, JValue.pyIterate, jarr_toList, pyStr,
    ← List.map_take, commitFirstLines_canonical, List.map_map,
    Function.comp_def]

/-- The `comment_fragment` detail for a canonically shaped
IssueCommentEvent: the body truncated to 100 characters, then `"..."`
appended. -/
theorem comment_fragment_spec_aux
    (repoName action body issueUrl commentUrl : String) (n : Int) :
    (simplify_event_details (.str "IssueCommentEvent")
        (mkIssueCommentEvent repoName action body issueUrl commentUrl n)).lookup
        "comment_fragment" = some (.str (strTake body 100 ++ "...")) := by
  simp [simplify_event_details, simplifyBody, mkIssueCommentEvent, jobj,
    JValue.get, JValue.getOrNone, JObj.get, JObj.lookup, JValue.eqStr,
    JValue.sliceTo, JValue.addStr, pyStr]

/-! ## Claim C8 -/

/-- C8: an IssueCommentEvent whose comment body has 150 characters
yields a `comment_fragment` of exactly the first 100 characters of the
body followed by the ellipsis marker `"..."`, 103 characters in all. -/
theorem comment_fragment_truncates (repoName action body issueUrl commentUrl : String)
    (n : Int) (h : body.length = 150) :
    (simplify_event_details (.str "IssueCommentEvent")
        (mkIssueCommentEvent repoName action body issueUrl commentUrl n)).lookup
        "comment_fragment" = some (.str (strTake body 100 ++ "...")) ∧
    (strTake body 100 ++ "...").length = 103 := by
  constructor
  · exact comment_fragment_spec_aux repoName action body issueUrl commentUrl n
  · have ht : (strTake body 100).length = 100 := by
      have hd : body.data.length = 150 := h
      simp [strTake, String.length, hd]
    rw [String.length_append, ht]
    rfl

set_option maxRecDepth 8000 in
/-- Witness for C8 at a concrete 150-character body. -/
theorem comment_fragment_truncates_witness :
    (String.mk (List.replicate 150 'x')).length = 150 ∧
    ((simplify_event_details (.str "IssueCommentEvent")
        (mkIssueCommentEvent "r" "created" (String.mk (List.replicate 150 'x'))
          "iu" "cu" 7)).lookup "comment_fragment" =
      some (.str (strTake (String.mk (List.replicate 150 'x')) 100 ++ "...")) ∧
    (strTake (String.mk (List.replicate 150 'x')) 100 ++ "...").length = 103) :=
  ⟨by decide,
   comment_fragment_truncates "r" "created" (String.mk (List.replicate 150 'x'))
     "iu" "cu" 7 (by decide)⟩

/-! ## Claim C10 -/

/-- C10: the ellipsis marker is appended unconditionally — a comment
body of `n ≤ 100` characters yields `comment_fragment` equal to the
whole body followed by `"..."`, of length `n + 3`, never equal to the
body itself; a payload with no comment at all yields `"..."` (the
missing body defaults to the empty string). -/
theorem comment_fragment_ellipsis_unconditional
    (repoName action body issueUrl commentUrl : String) (n : Int)
    (h : body.length ≤ 100) :
    ((simplify_event_details (.str "IssueCommentEvent")
        (mkIssueCommentEvent repoName action body issueUrl commentUrl n)).lookup
        "comment_fragment" = some (.str (body ++ "..."))) ∧
    (body ++ "...").length = body.length + 3 ∧
    body ++ "..." ≠ body ∧
    (simplify_event_details (.str "IssueCommentEvent")
        (jobj [("payload", .obj (jobj [("action", .str "created")]))])).lookup
        "comment_fragment" = some (.str "...") := by
  have ht : strTake body 100 = body := by
    apply String.ext
    exact List.take_of_length_le h
  have hdots : ("..." : String).length = 3 := rfl
  refine ⟨?_, ?_, ?_, by rfl⟩
  · have := comment_fragment_spec_aux repoName action body issueUrl commentUrl n
    rw [ht] at this
    exact this
  · rw [String.length_append, hdots]
  · intro hc
    have hlen := congrArg String.length hc
    rw [String.length_append, hdots] at hlen
    omega

/-- Witness for C10 at the concrete body `"hi"`. -/
theorem comment_fragment_ellipsis_unconditional_witness :
    ("hi" : String).length ≤ 100 ∧
    ((simplify_event_details (.str "IssueCommentEvent")
        (mkIssueCommentEvent "r" "created" "hi" "iu" "cu" 7)).lookup
        "comment_fragment" = some (.str ("hi" ++ "..."))) :=
  ⟨by decide,
   (comment_fragment_ellipsis_unconditional "r" "created" "hi" "iu" "cu" 7
     (by decide)).1⟩

/-! ## Claim C7 -/

/-- Counterexample to C7 as stated: at `commit_count = 0` the Push
message still uses the singular `"commit"` (the code appends `"s"` only
when `commit_count > 1`), so the singular is not used *only* when the
count is 1. -/
theorem push_message_singular_at_zero :
    get_human_readable_message (.str "PushEvent")
        (jobj [("commit_count", .num 0), ("repository", .str "r"),
               ("ref", .str "refs/heads/m"), ("commit_messages", .arr .nil)]) =
      "Pushed 0 commit to r/m" ∧
    strContains "Pushed 0 commit to r/m" "commit" = true ∧
    strContains "Pushed 0 commit to r/m" "commits" = false ∧
    (0 : Int) ≠ 1 := by decide

/-- C7 amended: the Push message uses the singular `"commit"` exactly
when `commit_count ≤ 1` (so also for a zero count), and `"commits"`
exactly when `commit_count > 1`. -/
theorem push_message_pluralization (cc : Int) (repoName refStr : String) :
    (cc ≤ 1 → get_human_readable_message (.str "PushEvent")
        (jobj [("commit_count", .num cc), ("repository", .str repoName),
               ("ref", .str refStr), ("commit_messages", .arr .nil)]) =
      "Pushed " ++ toString cc ++ " commit to " ++ repoName ++ "/" ++
        strReplace refStr "refs/heads/" "") ∧
    (1 < cc → get_human_readable_message (.str "PushEvent")
        (jobj [("commit_count", .num cc), ("repository", .str repoName),
               ("ref", .str refStr), ("commit_messages", .arr .nil)]) =
      "Pushed " ++ toString cc ++ " commits to " ++ repoName ++ "/" ++
        strReplace refStr "refs/heads/" "") := by
  constructor
  · intro h
    have hn : ¬ (1 : Int) < cc := not_lt.mpr h
    simp only [get_human_readable_message, msgBody, JValue.eqStr, jobj,
      JObj.index, JObj.lookup, JValue.replace, JValue.truthy, JValue.gtInt,
      JValue.indexZero, pyStr]
    simp [hn, JArr.toList, List.isEmpty]
    apply String.ext
    simp [String.data_append]
  · intro h
    simp only [get_human_readable_message, msgBody, JValue.eqStr, jobj,
      JObj.index, JObj.lookup, JValue.replace, JValue.truthy, JValue.gtInt,
      JValue.indexZero, pyStr]
    simp [h, JArr.toList, List.isEmpty]
    apply String.ext
    simp [String.data_append]

/-- Witness for C7 amended, at one commit and at two commits. -/
theorem push_message_pluralization_witness :
    get_human_readable_message (.str "PushEvent")
        (jobj [("commit_count", .num 1), ("repository", .str "r"),
               ("ref", .str "refs/heads/m"), ("commit_messages", .arr .nil)]) =
      "Pushed " ++ toString (1 : Int) ++ " commit to " ++ "r" ++ "/" ++
        strReplace "refs/heads/m" "refs/heads/" "" ∧
    get_human_readable_message (.str "PushEvent")
        (jobj [("commit_count", .num 2), ("repository", .str "r"),
               ("ref", .str "refs/heads/m"), ("commit_messages", .arr .nil)]) =
      "Pushed " ++ toString (2 : Int) ++ " commits to " ++ "r" ++ "/" ++
        strReplace "refs/heads/m" "refs/heads/" "" :=
  ⟨(push_message_pluralization 1 "r" "refs/heads/m").1 (by decide),
   (push_message_pluralization 2 "r" "refs/heads/m").2 (by decide)⟩

/-! ## Claim C3 -/

/-- Filtering by one timestamp commutes with `orderedInsert`: the
inserted activity lands in front of the equal-timestamp block (every
element skipped on the way in has a strictly larger timestamp). -/
theorem filter_orderedInsert (t : Int) (a : Activity) (l : List Activity) :
    (List.orderedInsert tsDesc a l).filter (fun x => x.timestamp == t) =
      if a.timestamp == t then
        a :: l.filter (fun x => x.timestamp == t)
      else l.filter (fun x => x.timestamp == t) := by
  induction l with
  | nil =>
    by_cases ha : (a.timestamp == t) = true <;>
      simp [List.orderedInsert, List.filter, ha]
  | cons b l ih =>
    simp only [List.orderedInsert]
    by_cases hr : tsDesc a b
    · rw [if_pos hr]
      by_cases ha : (a.timestamp == t) = true <;> simp [List.filter, ha]
    · rw [if_neg hr]
      have hab : a.timestamp < b.timestamp := not_le.mp hr
      by_cases ha : (a.timestamp == t) = true
      · have hat : a.timestamp = t := by simpa using ha
        have hbf : (b.timestamp == t) = false := by
          simp only [beq_eq_false_iff_ne, ne_eq]
          omega
        simp [List.filter, hbf, ha, ih]
      · by_cases hb : (b.timestamp == t) = true <;>
          simp [List.filter, ha, hb, ih]

/-- Filtering by one timestamp is invariant under the stable sort. -/
theorem filter_insertionSort (t : Int) (l : List Activity) :
    (List.insertionSort tsDesc l).filter (fun x => x.timestamp == t) =
      l.filter (fun x => x.timestamp == t) := by
  induction l with
  | nil => rfl
  | cons a l ih =>
    by_cases ha : (a.timestamp == t) = true <;>
      simp [List.insertionSort, filter_orderedInsert, ih, List.filter, ha]

/-- C3: `get_all_activities` returns the concatenation of the
per-source activity lists sorted by timestamp descending, ties broken
stably: the result is descending-sorted, is a permutation of the
concatenated collection, and for every timestamp the equal-timestamp
activities appear exactly in their source-iteration order; in
particular, sources returning timestamps `[T1, T3]` and `[T2]` with
`T1 < T2 < T3` yield the order `[T3, T2, T1]`. -/
theorem tracker_merge_sorted_stable :
    (∀ (sources : List Source) (u : String) (sd ed : Option Int),
      List.Sorted tsDesc (get_all_activities sources u sd ed) ∧
      (get_all_activities sources u sd ed).Perm
        (collectFromSources u sd ed sources) ∧
      ∀ t : Int,
        (get_all_activities sources u sd ed).filter (fun x => x.timestamp == t) =
          (collectFromSources u sd ed sources).filter (fun x => x.timestamp == t)) ∧
    (∀ (a1 a2 a3 : Activity) (u : String) (sd ed : Option Int),
      a1.timestamp < a2.timestamp → a2.timestamp < a3.timestamp →
      get_all_activities
          [(fun _ _ _ => .ok [a1, a3] : Source),
           (fun _ _ _ => .ok [a2] : Source)] u sd ed = [a3, a2, a1]) := by
  constructor
  · intro sources u sd ed
    refine ⟨List.sorted_insertionSort tsDesc _,
      List.perm_insertionSort tsDesc _, fun t => filter_insertionSort t _⟩
  · intro a1 a2 a3 u sd ed h12 h23
    have h13 : a1.timestamp < a3.timestamp := h12.trans h23
    have e1 : tsDesc a3 a2 := le_of_lt h23
    have e2 : ¬ tsDesc a1 a3 := not_le.mpr h13
    have e3 : ¬ tsDesc a1 a2 := not_le.mpr h12
    simp [get_all_activities, collectFromSources, List.insertionSort,
      List.orderedInsert, e1, e2, e3]

/-- Witness for C3's concrete merge example at timestamps 1 < 2 < 3. -/
theorem tracker_merge_sorted_stable_witness :
    get_all_activities
        [(fun _ _ _ => .ok [⟨"github", 1, .null, .nil, "m1"⟩,
                            ⟨"github", 3, .null, .nil, "m3"⟩] : Source),
         (fun _ _ _ => .ok [⟨"github", 2, .null, .nil, "m2"⟩] : Source)]
        "u" none none =
      [⟨"github", 3, .null, .nil, "m3"⟩, ⟨"github", 2, .null, .nil, "m2"⟩,
       ⟨"github", 1, .null, .nil, "m1"⟩] :=
  tracker_merge_sorted_stable.2 _ _ _ "u" none none (by decide) (by decide)

/-! ## Claim C5 -/

/-- The collection loop distributes over concatenation of the source
list. -/
theorem collectFromSources_append (u : String) (sd ed : Option Int)
    (l1 l2 : List Source) :
    collectFromSources u sd ed (l1 ++ l2) =
      collectFromSources u sd ed l1 ++ collectFromSources u sd ed l2 := by
  induction l1 with
  | nil => rfl
  | cons s rest ih =>
    simp only [List.cons_append, collectFromSources]
    cases s u sd ed <;> simp [ih]

/-- C5: if one registered source raises from `get_activities`, the
tracker's result is exactly what the surviving sources produce — the
failing source contributes nothing, and (the embedding being a total
function) no exception propagates to the caller. -/
theorem source_isolation (pre post : List Source) (f : Source) (u : String)
    (sd ed : Option Int) (h : raised (f u sd ed) = true) :
    get_all_activities (pre ++ f :: post) u sd ed =
      get_all_activities (pre ++ post) u sd ed := by
  unfold get_all_activities
  rw [collectFromSources_append, collectFromSources_append]
  have hstep : collectFromSources u sd ed (f :: post) =
      collectFromSources u sd ed post := by
    cases hf : f u sd ed with
    | ok l => rw [hf] at h; exact absurd h (by simp [raised])
    | error e => simp [collectFromSources, hf]
  rw [hstep]

/-- Witness for C5: one raising source alongside one surviving source. -/
theorem source_isolation_witness :
    get_all_activities
        [(fun _ _ _ => .error .typeError : Source),
         (fun _ _ _ => .ok [⟨"github", 5, .null, .nil, "m"⟩] : Source)]
        "u" none none =
      get_all_activities
        [(fun _ _ _ => .ok [⟨"github", 5, .null, .nil, "m"⟩] : Source)]
        "u" none none :=
  source_isolation []
    [(fun _ _ _ => .ok [⟨"github", 5, .null, .nil, "m"⟩] : Source)]
    (fun _ _ _ => .error .typeError) "u" none none rfl

/-! ## Claim C4 -/

/-- PushEvent branch of `msgBody`: a successful message is non-empty
and all four detail keys it subscripts were present. -/
theorem push_ok_facts (d : JObj) (s : String)
    (h : msgBody (.str "PushEvent") d = .ok s) :
    0 < s.length ∧ (d.lookup "commit_count").isSome ∧
      (d.lookup "repository").isSome ∧ (d.lookup "ref").isSome ∧
      (d.lookup "commit_messages").isSome := by
  simp only [msgBody, JValue.eqStr] at h
  norm_num at h
  cases h1 : d.index "commit_count" with
  | error e => rw [h1] at h; simp at h
  | ok cc =>
  rw [h1] at h; dsimp only [] at h
  cases h2 : d.index "repository" with
  | error e => rw [h2] at h; simp at h
  | ok repo =>
  rw [h2] at h; dsimp only [] at h
  cases h3 : d.index "ref" with
  | error e => rw [h3] at h; simp at h
  | ok refv =>
  rw [h3] at h; dsimp only [] at h
  cases h4 : refv.replace "refs/heads/" "" with
  | error e => rw [h4] at h; simp at h
  | ok branch =>
  rw [h4] at h; dsimp only [] at h
  cases h5 : d.index "commit_messages" with
  | error e => rw [h5] at h; simp at h
  | ok cms =>
  rw [h5] at h; dsimp only [] at h
  have hrest : 0 < s.length := by
    by_cases htr : JValue.truthy cms = true
    · rw [if_pos htr] at h
      cases h6 : cms.indexZero with
      | error e => rw [h6] at h; simp at h
      | ok first =>
        rw [h6] at h; dsimp only [] at h
        cases h7 : cc.gtInt 1 with
        | error e => rw [h7] at h; simp at h
        | ok plural =>
          rw [h7] at h; dsimp only [] at h
          simp at h
          rw [← h]
          simp only [String.length_append]
          have hp : String.length "Pushed " = 7 := rfl
          omega
    · rw [if_neg htr] at h; dsimp only [] at h
      cases h7 : cc.gtInt 1 with
      | error e => rw [h7] at h; simp at h
      | ok plural =>
        rw [h7] at h; dsimp only [] at h
        simp at h
        rw [← h]
        simp only [String.length_append]
        have hp : String.length "Pushed " = 7 := rfl
        omega
  exact ⟨hrest, index_ok_isSome h1, index_ok_isSome h2, index_ok_isSome h3,
    index_ok_isSome h5⟩

/-- PullRequestEvent branch of `msgBody`. -/
theorem pr_ok_facts (d : JObj) (s : String)
    (h : msgBody (.str "PullRequestEvent") d = .ok s) :
    0 < s.length ∧ (d.lookup "action").isSome ∧ (d.lookup "title").isSome ∧
      (d.lookup "number").isSome ∧ (d.lookup "repository").isSome := by
  simp only [msgBody, JValue.eqStr] at h
  norm_num at h
  cases h1 : d.index "action" with
  | error e => rw [h1] at h; simp at h
  | ok action =>
  rw [h1] at h; dsimp only [] at h
  cases h2 : d.index "title" with
  | error e => rw [h2] at h; simp at h
  | ok title =>
  rw [h2] at h; dsimp only [] at h
  cases h3 : d.index "number" with
  | error e => rw [h3] at h; simp at h
  | ok number =>
  rw [h3] at h; dsimp only [] at h
  cases h4 : d.index "repository" with
  | error e => rw [h4] at h; simp at h
  | ok repo =>
  rw [h4] at h; dsimp only [] at h
  cases h5 : action.capitalize with
  | error e => rw [h5] at h; simp at h
  | ok capAction =>
  rw [h5] at h; dsimp only [] at h
  simp at h
  refine ⟨?_, index_ok_isSome h1, index_ok_isSome h2, index_ok_isSome h3,
    index_ok_isSome h4⟩
  rw [← h]
  simp only [String.length_append]
  have hp : String.length " PR #" = 5 := rfl
  omega

/-- IssuesEvent branch of `msgBody`. -/
theorem issues_ok_facts (d : JObj) (s : String)
    (h : msgBody (.str "IssuesEvent") d = .ok s) :
    0 < s.length ∧ (d.lookup "action").isSome ∧ (d.lookup "title").isSome ∧
      (d.lookup "number").isSome ∧ (d.lookup "repository").isSome := by
  simp only [msgBody, JValue.eqStr] at h
  norm_num at h
  cases h1 : d.index "action" with
  | error e => rw [h1] at h; simp at h
  | ok action =>
  rw [h1] at h; dsimp only [] at h
  cases h2 : d.index "title" with
  | error e => rw [h2] at h; simp at h
  | ok title =>
  rw [h2] at h; dsimp only [] at h
  cases h3 : d.index "number" with
  | error e => rw [h3] at h; simp at h
  | ok number =>
  rw [h3] at h; dsimp only [] at h
  cases h4 : d.index "repository" with
  | error e => rw [h4] at h; simp at h
  | ok repo =>
  rw [h4] at h; dsimp only [] at h
  cases h5 : action.capitalize with
  | error e => rw [h5] at h; simp at h
  | ok capAction =>
  rw [h5] at h; dsimp only [] at h
  simp at h
  refine ⟨?_, index_ok_isSome h1, index_ok_isSome h2, index_ok_isSome h3,
    index_ok_isSome h4⟩
  rw [← h]
  simp only [String.length_append]
  have hp : String.length " issue #" = 8 := rfl
  omega

/-- IssueCommentEvent branch of `msgBody`. -/
theorem issue_comment_ok_facts (d : JObj) (s : String)
    (h : msgBody (.str "IssueCommentEvent") d = .ok s) :
    0 < s.length ∧ (d.lookup "repository").isSome ∧
      (d.lookup "issue_number").isSome ∧
      (d.lookup "comment_fragment").isSome := by
  simp only [msgBody, JValue.eqStr] at h
  norm_num at h
  cases h1 : d.index "repository" with
  | error e => rw [h1] at h; simp at h
  | ok repo =>
  rw [h1] at h; dsimp only [] at h
  cases h2 : d.index "issue_number" with
  | error e => rw [h2] at h; simp at h
  | ok number =>
  rw [h2] at h; dsimp only [] at h
  cases h3 : d.index "comment_fragment" with
  | error e => rw [h3] at h; simp at h
  | ok comment =>
  rw [h3] at h; dsimp only [] at h
  simp at h
  refine ⟨?_, index_ok_isSome h1, index_ok_isSome h2, index_ok_isSome h3⟩
  rw [← h]
  simp only [String.length_append]
  have hp : String.length "Commented on issue #" = 20 := rfl
  omega

/-- CreateEvent branch of `msgBody`. -/
theorem create_ok_facts (d : JObj) (s : String)
    (h : msgBody (.str "CreateEvent") d = .ok s) :
    0 < s.length ∧ (d.lookup "ref_type").isSome ∧ (d.lookup "ref").isSome ∧
      (d.lookup "repository").isSome := by
  simp only [msgBody, JValue.eqStr] at h
  norm_num at h
  cases h1 : d.index "ref_type" with
  | error e => rw [h1] at h; simp at h
  | ok refType =>
  rw [h1] at h; dsimp only [] at h
  cases h2 : d.index "ref" with
  | error e => rw [h2] at h; simp at h
  | ok ref =>
  rw [h2] at h; dsimp only [] at h
  cases h3 : d.index "repository" with
  | error e => rw [h3] at h; simp at h
  | ok repo =>
  rw [h3] at h; dsimp only [] at h
  simp at h
  refine ⟨?_, index_ok_isSome h1, index_ok_isSome h2, index_ok_isSome h3⟩
  rw [← h]
  simp only [String.length_append]
  have hp : String.length "Created " = 8 := rfl
  omega

/-- DeleteEvent branch of `msgBody`. -/
theorem delete_ok_facts (d : JObj) (s : String)
    (h : msgBody (.str "DeleteEvent") d = .ok s) :
    0 < s.length ∧ (d.lookup "ref_type").isSome ∧ (d.lookup "ref").isSome ∧
      (d.lookup "repository").isSome := by
  simp only [msgBody, JValue.eqStr] at h
  norm_num at h
  cases h1 : d.index "ref_type" with
  | error e => rw [h1] at h; simp at h
  | ok refType =>
  rw [h1] at h; dsimp only [] at h
  cases h2 : d.index "ref" with
  | error e => rw [h2] at h; simp at h
  | ok ref =>
  rw [h2] at h; dsimp only [] at h
  cases h3 : d.index "repository" with
  | error e => rw [h3] at h; simp at h
  | ok repo =>
  rw [h3] at h; dsimp only [] at h
  simp at h
  refine ⟨?_, index_ok_isSome h1, index_ok_isSome h2, index_ok_isSome h3⟩
  rw [← h]
  simp only [String.length_append]
  have hp : String.length "Deleted " = 8 := rfl
  omega

/-- WatchEvent branch of `msgBody`. -/
theorem watch_ok_facts (d : JObj) (s : String)
    (h : msgBody (.str "WatchEvent") d = .ok s) :
    0 < s.length ∧ (d.lookup "repository").isSome := by
  simp only [msgBody, JValue.eqStr] at h
  norm_num at h
  cases h1 : d.index "repository" with
  | error e => rw [h1] at h; simp at h
  | ok repo =>
  rw [h1] at h; dsimp only [] at h
  simp at h
  refine ⟨?_, index_ok_isSome h1⟩
  rw [← h]
  simp only [String.length_append]
  have hp : String.length "Starred repository " = 19 := rfl
  omega

/-- Unrecognized-type branch of `msgBody`: always succeeds with a
non-empty generic message, reading keys only through `.get`. -/
theorem other_ok_facts (et : String) (d : JObj) (s : String)
    (n1 : et ≠ "PushEvent") (n2 : et ≠ "PullRequestEvent")
    (n3 : et ≠ "IssuesEvent") (n4 : et ≠ "IssueCommentEvent")
    (n5 : et ≠ "CreateEvent") (n6 : et ≠ "DeleteEvent")
    (n7 : et ≠ "WatchEvent")
    (h : msgBody (.str et) d = .ok s) : 0 < s.length := by
  simp only [msgBody, JValue.eqStr] at h
  rw [if_neg (by simp [n1]), if_neg (by simp [n2]), if_neg (by simp [n3]),
    if_neg (by simp [n4]), if_neg (by simp [n5]), if_neg (by simp [n6]),
    if_neg (by simp [n7])] at h
  simp at h
  rw [← h]
  simp only [String.length_append]
  have hp : String.length "Performed " = 10 := rfl
  omega

/-- Success facts for `msgBody` at every event-type string: a returned
message is non-empty, and every key in `requiredKeys` was present in the
details. -/
theorem msgBody_ok_facts (et : String) (d : JObj) (s : String)
    (h : msgBody (.str et) d = .ok s) :
    0 < s.length ∧ ∀ k ∈ requiredKeys et, (d.lookup k).isSome := by
  by_cases e1 : et = "PushEvent"
  · subst e1
    obtain ⟨hl, k1, k2, k3, k4⟩ := push_ok_facts d s h
    refine ⟨hl, fun k hk => ?_⟩
    simp [requiredKeys] at hk
    rcases hk with rfl | rfl | rfl | rfl
    exacts [k1, k2, k3, k4]
  by_cases e2 : et = "PullRequestEvent"
  · subst e2
    obtain ⟨hl, k1, k2, k3, k4⟩ := pr_ok_facts d s h
    refine ⟨hl, fun k hk => ?_⟩
    simp [requiredKeys] at hk
    rcases hk with rfl | rfl | rfl | rfl
    exacts [k1, k2, k3, k4]
  by_cases e3 : et = "IssuesEvent"
  · subst e3
    obtain ⟨hl, k1, k2, k3, k4⟩ := issues_ok_facts d s h
    refine ⟨hl, fun k hk => ?_⟩
    simp [requiredKeys] at hk
    rcases hk with rfl | rfl | rfl | rfl
    exacts [k1, k2, k3, k4]
  by_cases e4 : et = "IssueCommentEvent"
  · subst e4
    obtain ⟨hl, k1, k2, k3⟩ := issue_comment_ok_facts d s h
    refine ⟨hl, fun k hk => ?_⟩
    simp [requiredKeys] at hk
    rcases hk with rfl | rfl | rfl
    exacts [k1, k2, k3]
  by_cases e5 : et = "CreateEvent"
  · subst e5
    obtain ⟨hl, k1, k2, k3⟩ := create_ok_facts d s h
    refine ⟨hl, fun k hk => ?_⟩
    simp [requiredKeys] at hk
    rcases hk with rfl | rfl | rfl
    exacts [k1, k2, k3]
  by_cases e6 : et = "DeleteEvent"
  · subst e6
    obtain ⟨hl, k1, k2, k3⟩ := delete_ok_facts d s h
    refine ⟨hl, fun k hk => ?_⟩
    simp [requiredKeys] at hk
    rcases hk with rfl | rfl | rfl
    exacts [k1, k2, k3]
  by_cases e7 : et = "WatchEvent"
  · subst e7
    obtain ⟨hl, k1⟩ := watch_ok_facts d s h
    refine ⟨hl, fun k hk => ?_⟩
    simp [requiredKeys] at hk
    rcases hk with rfl
    exact k1
  refine ⟨other_ok_facts et d s e1 e2 e3 e4 e5 e6 e7 h, fun k hk => ?_⟩
  simp [requiredKeys, e1, e2, e3, e4, e5, e6, e7] at hk

/-- C4: for every event type string and every details mapping (in
particular the error fallback produced by `simplify`), the describe
operation returns a non-empty string and never raises, and whenever one
of the detail keys the selected branch subscripts is missing, the result
is exactly `"Performed {event_type}"`. -/
theorem describe_total_fallback (et : String) (d : JObj) :
    0 < (get_human_readable_message (.str et) d).length ∧
    (∀ k ∈ requiredKeys et, d.lookup k = none →
      get_human_readable_message (.str et) d = "Performed " ++ et) := by
  constructor
  · cases hb : msgBody (.str et) d with
    | error e =>
      unfold get_human_readable_message
      rw [hb]
      simp only [String.length_append]
      have hp : String.length "Performed " = 10 := rfl
      omega
    | ok s =>
      unfold get_human_readable_message
      rw [hb]
      exact (msgBody_ok_facts et d s hb).1
  · intro k hk hnone
    cases hb : msgBody (.str et) d with
    | error e =>
      unfold get_human_readable_message
      rw [hb]
      rfl
    | ok s =>
      have := (msgBody_ok_facts et d s hb).2 k hk
      rw [hnone] at this
      exact absurd this (by simp)

/-- Witness for C4: the empty details mapping (every required key
missing) for a PushEvent yields exactly `"Performed PushEvent"`, and the
message at the error-fallback details is non-empty. -/
theorem describe_total_fallback_witness :
    0 < (get_human_readable_message (.str "PushEvent") fallbackDetails).length ∧
    "commit_count" ∈ requiredKeys "PushEvent" ∧
    JObj.nil.lookup "commit_count" = none ∧
    get_human_readable_message (.str "PushEvent") JObj.nil =
      "Performed " ++ "PushEvent" :=
  ⟨(describe_total_fallback "PushEvent" fallbackDetails).1, by decide, rfl,
   (describe_total_fallback "PushEvent" JObj.nil).2 "commit_count" (by decide) rfl⟩
